import Mathlib

/-!
Verification of the Preflight_universal heuristic scoring engine.

Shallow embedding of the repository's core:
  * `src/preflight/core/shell.js` (both shell variants: the engine-based shell
    with `determinePlugin`, and the plugin-routing shell with `routes` /
    `addFileCard`),
  * `src/preflight/plugins/labs/index.js` (the labs analyzers),
  * the med-imaging plugin (`src/unnamed/part_000`).

JavaScript strings are embedded as Lean `String` / `List Char`; machine floats
used only in comparisons are embedded as exact rationals; fallible collaborator
calls (image decode, PDF parse, JSON parse, file read) are embedded as `Except`
inputs.  Analyzer scoring stages are embedded over the decoded metric values
that the collaborators and the pixel-statistics utilities produce.
-/

namespace Preflight

/-- A file descriptor: name, declared MIME type, raw byte content.
Routing and dispatch only ever inspect `name` and `type`. -/
structure FileDesc where
  name : String
  type : String
  content : List Nat
deriving DecidableEq, Repr

/-- An analysis result: `{score, messages, details}` as returned by every
plugin analyzer. -/
structure Result where
  score : Int
  messages : List String
  details : List String
deriving DecidableEq, Repr

/- ----------------------------------------------------------------- -/
/- Character-list string helpers (embedding of the JS string methods) -/
/- ----------------------------------------------------------------- -/

/-- Embedding of `String.prototype.toLowerCase` (character-wise). -/
def jsLower (s : String) : List Char := s.data.map Char.toLower

/-- Substring test: embedding of `String.prototype.includes` and of a regex
test for a fixed literal pattern. -/
def containsSub (hay pat : List Char) : Bool :=
  match hay with
  | [] => pat.isEmpty
  | _ :: t => pat.isPrefixOf hay || containsSub t pat

/-- Any of the literal alternatives of a regex occurs as a substring. -/
def containsAny (hay : List Char) (pats : List (List Char)) : Bool :=
  pats.any (fun p => containsSub hay p)

/-- Suffix test, embedding of `String.prototype.endsWith` and of anchored
`$` regex tests for a literal. -/
def endsWithL (hay suf : List Char) : Bool := suf.isSuffixOf hay

/-- Any of the literal alternatives of an anchored regex is a suffix. -/
def endsWithAny (hay : List Char) (sufs : List (List Char)) : Bool :=
  sufs.any (fun p => endsWithL hay p)

/-- Prefix test, embedding of `^`-anchored regex tests for a literal. -/
def startsWithL (hay pre : List Char) : Bool := pre.isPrefixOf hay

/-- Embedding of `String.prototype.split(sep)` for a one-character
separator: always returns a non-empty list of parts. -/
def jsSplit (sep : Char) : List Char → List (List Char)
  | [] => [[]]
  | c :: cs =>
    match jsSplit sep cs with
    | [] => [[]]
    | r :: rs => if c = sep then [] :: r :: rs else (c :: r) :: rs

/-- Embedding of `String.prototype.split(/\r?\n/)`. -/
def jsSplitLines : List Char → List (List Char)
  | '\r' :: '\n' :: cs =>
    match jsSplitLines cs with
    | [] => [[]]
    | r :: rs => [] :: r :: rs
  | '\n' :: cs =>
    match jsSplitLines cs with
    | [] => [[]]
    | r :: rs => [] :: r :: rs
  | c :: cs =>
    match jsSplitLines cs with
    | [] => [[c]]
    | r :: rs => (c :: r) :: rs
  | [] => [[]]

/- ------------------------------------------------ -/
/- Trim and dedupe (labs/index.js and part_000 both) -/
/- ------------------------------------------------ -/

/-- Drop trailing whitespace characters. -/
def trimRight : List Char → List Char
  | [] => []
  | c :: cs =>
    match trimRight cs with
    | [] => if c.isWhitespace then [] else [c]
    | d :: ds => c :: d :: ds

/-- Embedding of `String.prototype.trim`: drop leading and trailing
whitespace. -/
def trimChars (l : List Char) : List Char :=
  trimRight (l.dropWhile Char.isWhitespace)

/-- `String(x).trim()` at the `String` level. -/
def strTrim (s : String) : String := ⟨trimChars s.data⟩

/-- The recursion of `function dedupe(arr){ const s=new Set(), out=[]; for(const x of arr){
const k=String(x).trim(); if(k && !s.has(k)){ s.add(k); out.push(k); } } return out; }`,
with the `Set` embedded as the list `seen` of keys added so far. -/
def dedupeGo (seen : List String) : List String → List String
  | [] => []
  | x :: xs =>
    let k := strTrim x
    if k ≠ "" ∧ k ∉ seen then k :: dedupeGo (k :: seen) xs
    else dedupeGo seen xs

/-- `dedupe` from `labs/index.js` line 173 and `part_000` line 109. -/
def dedupe (arr : List String) : List String := dedupeGo [] arr

lemma dropWhile_idem (p : Char → Bool) (l : List Char) :
    (l.dropWhile p).dropWhile p = l.dropWhile p := by
  induction l with
  | nil => rfl
  | cons c cs ih =>
    by_cases h : p c
    · simpa [List.dropWhile_cons, h] using ih
    · simp [List.dropWhile_cons, h]

lemma trimRight_shape (c : Char) (cs : List Char) :
    trimRight (c :: cs) = [] ∨ ∃ t, trimRight (c :: cs) = c :: t := by
  cases h : trimRight cs with
  | nil =>
    by_cases hw : c.isWhitespace
    · left; simp [trimRight, h, hw]
    · right; exact ⟨[], by simp [trimRight, h, hw]⟩
  | cons d ds => right; exact ⟨d :: ds, by simp [trimRight, h]⟩

lemma trimRight_cons_of_cons (e : Char) {l : List Char} {d : Char} {ds : List Char}
    (hl : trimRight l = d :: ds) : trimRight (e :: l) = e :: d :: ds := by
  simp [trimRight, hl]

lemma trimRight_idem (l : List Char) : trimRight (trimRight l) = trimRight l := by
  induction l with
  | nil => rfl
  | cons c cs ih =>
    cases h : trimRight cs with
    | nil =>
      by_cases hw : c.isWhitespace
      · simp [trimRight, h, hw]
      · simp [trimRight, h, hw]
    | cons d ds =>
      have hne : trimRight (d :: ds) = d :: ds := by
        rw [← h]; rw [h] at ih ⊢; exact ih
      rw [trimRight_cons_of_cons c h, trimRight_cons_of_cons c hne]

lemma dropWhile_trimRight (l : List Char) (hl : l.dropWhile Char.isWhitespace = l) :
    (trimRight l).dropWhile Char.isWhitespace = trimRight l := by
  cases l with
  | nil => rfl
  | cons c cs =>
    have hc : ¬ c.isWhitespace := by
      intro hw
      have h1 : (c :: cs).dropWhile Char.isWhitespace = cs.dropWhile Char.isWhitespace := by
        simp [List.dropWhile_cons, hw]
      have h2 : (cs.dropWhile Char.isWhitespace).length ≤ cs.length :=
        (List.dropWhile_sublist Char.isWhitespace).length_le
      rw [hl] at h1
      have := congrArg List.length h1
      simp at this
      omega
    rcases trimRight_shape c cs with h | ⟨t, h⟩
    · simp [h]
    · simp [h, List.dropWhile_cons, hc]

lemma trimChars_idem (l : List Char) : trimChars (trimChars l) = trimChars l := by
  unfold trimChars
  rw [dropWhile_trimRight _ (dropWhile_idem _ l), trimRight_idem]

lemma strTrim_idem (s : String) : strTrim (strTrim s) = strTrim s :=
  congrArg String.mk (trimChars_idem s.data)

lemma mem_dedupeGo {l : List String} :
    ∀ {seen s}, s ∈ dedupeGo seen l → strTrim s = s ∧ s ≠ "" ∧ s ∉ seen := by
  induction l with
  | nil => intro seen s h; simp [dedupeGo] at h
  | cons x xs ih =>
    intro seen s h
    simp only [dedupeGo] at h
    by_cases hc : strTrim x ≠ "" ∧ strTrim x ∉ seen
    · rw [if_pos hc] at h
      rcases List.mem_cons.mp h with rfl | h2
      · exact ⟨strTrim_idem x, hc.1, hc.2⟩
      · have h3 := ih h2
        exact ⟨h3.1, h3.2.1, fun hs => h3.2.2 (List.mem_cons_of_mem _ hs)⟩
    · rw [if_neg hc] at h
      exact ih h

lemma nodup_dedupeGo (l : List String) : ∀ seen, (dedupeGo seen l).Nodup := by
  induction l with
  | nil => intro seen; simp [dedupeGo]
  | cons x xs ih =>
    intro seen
    simp only [dedupeGo]
    split
    · refine List.nodup_cons.mpr ⟨?_, ih _⟩
      intro hmem
      exact (mem_dedupeGo hmem).2.2 (List.mem_cons_self _ _)
    · exact ih seen

lemma dedupeGo_fixpoint :
    ∀ (l seen : List String), (∀ s ∈ l, strTrim s = s ∧ s ≠ "" ∧ s ∉ seen) →
      l.Nodup → dedupeGo seen l = l := by
  intro l
  induction l with
  | nil => intro seen _ _; rfl
  | cons x xs ih =>
    intro seen h hn
    have hx := h x (List.mem_cons_self _ _)
    simp only [dedupeGo]
    rw [hx.1, if_pos ⟨hx.2.1, hx.2.2⟩]
    congr 1
    apply ih
    · intro s hs
      have hsprops := h s (List.mem_cons_of_mem _ hs)
      refine ⟨hsprops.1, hsprops.2.1, ?_⟩
      intro hmem
      rcases List.mem_cons.mp hmem with rfl | hseen
      · exact (List.nodup_cons.mp hn).1 hs
      · exact hsprops.2.2 hseen
    · exact (List.nodup_cons.mp hn).2

lemma dedupe_idem_l (x : List String) : dedupe (dedupe x) = dedupe x := by
  apply dedupeGo_fixpoint
  · intro s hs
    have h := mem_dedupeGo hs
    exact ⟨h.1, h.2.1, by simp⟩
  · exact nodup_dedupeGo _ _

lemma dedupeGo_congr_seen :
    ∀ (l s1 s2 : List String), (∀ a, a ∈ s1 ↔ a ∈ s2) → dedupeGo s1 l = dedupeGo s2 l := by
  intro l
  induction l with
  | nil => intro _ _ _; rfl
  | cons x xs ih =>
    intro s1 s2 h
    simp only [dedupeGo]
    by_cases hc : strTrim x ≠ "" ∧ strTrim x ∉ s1
    · rw [if_pos hc, if_pos ⟨hc.1, fun hm => hc.2 ((h _).mpr hm)⟩]
      congr 1
      apply ih
      intro a
      simp only [List.mem_cons, h a]
    · have hc2 : ¬ (strTrim x ≠ "" ∧ strTrim x ∉ s2) := by
        intro hc2
        exact hc ⟨hc2.1, fun hm => hc2.2 ((h _).mp hm)⟩
      rw [if_neg hc, if_neg hc2]
      exact ih _ _ h

lemma dedupeGo_cons_seen (a : String) :
    ∀ (l seen : List String),
      dedupeGo (a :: seen) l = (dedupeGo seen l).filter (fun y => y ≠ a) := by
  intro l
  induction l with
  | nil => intro _; rfl
  | cons x xs ih =>
    intro seen
    simp only [dedupeGo]
    by_cases h1 : strTrim x = ""
    · rw [if_neg (by simp [h1]), if_neg (by simp [h1])]
      exact ih seen
    · by_cases h2 : strTrim x = a
      · rw [if_neg (by simp [h2])]
        by_cases h3 : strTrim x ∈ seen
        · rw [if_neg (by simp [h3])]
          exact ih seen
        · rw [if_pos ⟨h1, h3⟩, List.filter_cons]
          have hdrop : (decide (strTrim x ≠ a)) = false := by simp [h2]
          rw [hdrop]
          simp only [Bool.false_eq_true, if_false]
          rw [← ih (strTrim x :: seen)]
          apply dedupeGo_congr_seen
          intro b
          subst h2
          simp only [List.mem_cons]
          tauto
      · by_cases h3 : strTrim x ∈ seen
        · rw [if_neg (by simp [h3]), if_neg (by simp [h3])]
          exact ih seen
        · rw [if_pos ⟨h1, by simp [List.mem_cons, h2, h3]⟩, if_pos ⟨h1, h3⟩,
            List.filter_cons]
          have hkeep : (decide (strTrim x ≠ a)) = true := by simp [h2]
          rw [hkeep]
          simp only [if_true]
          congr 1
          rw [← ih (strTrim x :: seen)]
          apply dedupeGo_congr_seen
          intro b
          simp only [List.mem_cons]
          tauto

lemma dedupe_cons (x : String) (xs : List String) :
    dedupe (x :: xs) = if strTrim x = "" then dedupe xs
      else strTrim x :: (dedupe xs).filter (fun y => y ≠ strTrim x) := by
  simp only [dedupe, dedupeGo]
  by_cases h : strTrim x = ""
  · rw [if_neg (by simp [h]), if_pos h]
  · rw [if_pos ⟨h, by simp⟩, if_neg h]
    congr 1
    exact dedupeGo_cons_seen _ xs []

lemma dedupeGo_sublist :
    ∀ (l seen : List String), List.Sublist (dedupeGo seen l) (l.map strTrim) := by
  intro l
  induction l with
  | nil => intro _; simp [dedupeGo]
  | cons x xs ih =>
    intro seen
    simp only [dedupeGo, List.map_cons]
    split
    · exact List.Sublist.cons₂ _ (ih _)
    · exact List.Sublist.cons _ (ih _)

lemma mem_dedupeGo_of_mem :
    ∀ (l seen : List String) (s : String), s ∈ l → strTrim s ≠ "" →
      strTrim s ∉ seen → strTrim s ∈ dedupeGo seen l := by
  intro l
  induction l with
  | nil => intro seen s hs _ _; simp at hs
  | cons x xs ih =>
    intro seen s hs hne hnotseen
    simp only [dedupeGo]
    rcases List.mem_cons.mp hs with rfl | hs2
    · rw [if_pos ⟨hne, hnotseen⟩]
      exact List.mem_cons_self _ _
    · by_cases hc : strTrim x ≠ "" ∧ strTrim x ∉ seen
      · rw [if_pos hc]
        by_cases he : strTrim s = strTrim x
        · rw [he]
          exact List.mem_cons_self _ _
        · exact List.mem_cons_of_mem _
            (ih _ _ hs2 hne (by simp [List.mem_cons, he, hnotseen]))
      · rw [if_neg hc]
        exact ih _ _ hs2 hne hnotseen

/- --------------------------------------------------- -/
/- Labs plugin (src/preflight/plugins/labs/index.js)     -/
/- --------------------------------------------------- -/

/-- `POLICY.pdf` of the labs plugin. -/
structure PdfPolicy where
  text : Int
  dpi_hi : Int
  dpi_mid : Int
  skew : Int
  contrast_hi : Int
  contrast_mid : Int
  contrast_low : Int
  completeness : Int

/-- `POLICY.pdf` values (the `skew_penalty: -8` entry is never applied by the code). -/
def labsPdfW : PdfPolicy := ⟨35, 20, 12, -8, 20, 12, 6, 15⟩

/-- `POLICY.image` of the labs plugin. -/
structure ImagePolicy where
  resolution_hi : Int
  resolution_mid : Int
  resolution_low : Int
  sharp_hi : Int
  sharp_mid : Int
  sharp_low : Int
  contrast_hi : Int
  contrast_mid : Int
  contrast_low : Int

def labsImageW : ImagePolicy := ⟨35, 20, 8, 25, 15, 6, 20, 12, 6⟩

/-- `POLICY.csv` of the labs plugin. -/
structure CsvPolicy where
  rows_hi : Int
  rows_low : Int
  consistency_hi : Int
  consistency_mid : Int
  consistency_low : Int
  empties_hi : Int
  empties_mid : Int
  empties_low : Int
  units_bonus : Int

def labsCsvW : CsvPolicy := ⟨30, 15, 35, 22, 10, 20, 10, 5, 10⟩

/-- `POLICY.xlsx` of the labs plugin. -/
structure XlsxPolicy where
  rows_hi : Int
  rows_low : Int
  cols_hi : Int
  cols_low : Int
  empties_hi : Int
  empties_mid : Int
  empties_low : Int
  units_bonus : Int

def labsXlsxW : XlsxPolicy := ⟨30, 15, 25, 12, 20, 10, 5, 10⟩

/-- `POLICY.fhir` of the labs plugin; the JS key `structure` is a Lean keyword
and is embedded as `structureW`. -/
structure FhirPolicy where
  structureW : Int
  observations : Int
  units : Int

def labsFhirW : FhirPolicy := ⟨60, 25, 15⟩

/-- `POLICY.hl7` of the labs plugin (the code applies hard-wired 30/15/25
points rather than these table entries). -/
structure Hl7Policy where
  segments : Int
  observations : Int
  codes : Int

def labsHl7W : Hl7Policy := ⟨60, 25, 15⟩

/-- `POLICY.thresholds` — shared by all labs analyzers. -/
structure Thresholds where
  accept : Int
  borderline : Int

def labsThresholds : Thresholds := ⟨85, 70⟩

/-- The decoded PDF sample `analyzePdf` scores: text-layer flag, rendered
megapixels, contrast, sharpness (the sharpness metric is displayed but never
scored). All metrics are outputs of the PDF.js render and the pixel
statistics utilities. -/
structure PdfSample where
  hasText : Bool
  megapx : ℚ
  lapVar : ℚ
  contrast : ℚ

/-- Score accumulation of `analyzePdf` (labs/index.js lines 38–50). -/
def analyzePdfRaw (s : PdfSample) : Int :=
  (if s.hasText then labsPdfW.text else 0) +
  (if s.megapx ≥ 2 then labsPdfW.dpi_hi else if s.megapx ≥ 1 then labsPdfW.dpi_mid else 0) +
  (if s.contrast ≥ 30 then labsPdfW.contrast_hi
   else if s.contrast ≥ 20 then labsPdfW.contrast_mid else labsPdfW.contrast_low) +
  labsPdfW.completeness

/-- Advisory messages of `analyzePdf`, in push order. -/
def analyzePdfMsgs (s : PdfSample) : List String :=
  (if s.hasText then [] else ["Scanned PDF — OCR will be required."]) ++
  (if s.megapx ≥ 2 then []
   else if s.megapx ≥ 1 then ["Low resolution — prefer ≥ 300 DPI."] else []) ++
  ["Check patient name, date, test panel, and reference ranges present."]

/-- `analyzePdf`: the whole body is wrapped in try/catch; a PDF.js failure is
converted into a fixed score-50 result whose details carry the error
description.  Details of the success branch (numeric `toFixed` formatting)
are not modelled. -/
def analyzePdf : Except String PdfSample → Result
  | .error e =>
    { score := 50, messages := ["PDF parse error — limited checks."]
      details := ["PDF.js error: " ++ e] }
  | .ok s =>
    { score := min 100 (analyzePdfRaw s), messages := dedupe (analyzePdfMsgs s)
      details := [] }

/-- The decoded image sample `analyzeImage` scores. -/
structure ImgSample where
  megapx : ℚ
  lapVar : ℚ
  contrast : ℚ

/-- Score accumulation of `analyzeImage` (labs/index.js lines 66–73). -/
def analyzeImageRaw (s : ImgSample) : Int :=
  (if s.megapx ≥ 2 then labsImageW.resolution_hi
   else if s.megapx ≥ 1 then labsImageW.resolution_mid else labsImageW.resolution_low) +
  (if s.lapVar > 120 then labsImageW.sharp_hi
   else if s.lapVar ≥ 60 then labsImageW.sharp_mid else labsImageW.sharp_low) +
  (if s.contrast ≥ 30 then labsImageW.contrast_hi
   else if s.contrast ≥ 20 then labsImageW.contrast_mid else labsImageW.contrast_low)

/-- Advisory messages of `analyzeImage`, in push order. -/
def analyzeImageMsgs (s : ImgSample) : List String :=
  (if s.megapx ≥ 2 then []
   else if s.megapx ≥ 1 then ["Low resolution — aim for higher DPI."]
   else ["Very low resolution."]) ++
  (if s.lapVar > 120 then []
   else if s.lapVar ≥ 60 then ["Slight blur."] else ["Blurry — rescan."]) ++
  (if s.contrast ≥ 30 then []
   else if s.contrast ≥ 20 then ["Low contrast."] else ["Very low contrast."])

/-- The scoring stage of `analyzeImage`. -/
def analyzeImageCore (s : ImgSample) : Result :=
  { score := min 100 (analyzeImageRaw s), messages := dedupe (analyzeImageMsgs s)
    details := [] }

/-- `analyzeImage`: it has NO try/catch — a decode failure of `loadImage`
propagates to the caller, which is why the input error is mapped through. -/
def analyzeImage (input : Except String ImgSample) : Except String Result :=
  input.map analyzeImageCore

/-- The sampled tabular metrics `analyzeCsv` scores (rows capped at 200,
text at 250000 bytes, by the sampling code). -/
structure CsvSample where
  rowsLen : Nat
  inconsistencyRate : ℚ
  emptyRate : ℚ
  hasUnitTokens : Bool

/-- Score accumulation of `analyzeCsv` (labs/index.js lines 90–100). -/
def analyzeCsvRaw (s : CsvSample) : Int :=
  (if s.rowsLen ≥ 10 then labsCsvW.rows_hi else labsCsvW.rows_low) +
  (if s.inconsistencyRate ≤ 0.05 then labsCsvW.consistency_hi
   else if s.inconsistencyRate ≤ 0.15 then labsCsvW.consistency_mid
   else labsCsvW.consistency_low) +
  (if s.emptyRate ≤ 0.1 then labsCsvW.empties_hi
   else if s.emptyRate ≤ 0.25 then labsCsvW.empties_mid else labsCsvW.empties_low) +
  (if s.hasUnitTokens then labsCsvW.units_bonus else 0)

/-- Advisory messages of `analyzeCsv`, in push order. -/
def analyzeCsvMsgs (s : CsvSample) : List String :=
  (if s.rowsLen ≥ 10 then [] else ["Very few rows — include ≥ 10."]) ++
  (if s.inconsistencyRate ≤ 0.05 then []
   else if s.inconsistencyRate ≤ 0.15 then ["Irregular column counts — fix separators/quotes."]
   else ["Highly inconsistent columns — clean CSV export."]) ++
  (if s.emptyRate ≤ 0.1 then []
   else if s.emptyRate ≤ 0.25 then ["Many empty cells — fill key fields."]
   else ["Too many empty cells."]) ++
  ["Ensure patient ID, collection date/time, units, and reference ranges are present."]

/-- `analyzeCsv` result. -/
def analyzeCsv (s : CsvSample) : Result :=
  { score := min 100 (analyzeCsvRaw s), messages := dedupe (analyzeCsvMsgs s)
    details := [] }

/-- The four outcomes of `analyzeXlsx`: the XLSX engine may be unavailable
after the bounded wait, the workbook may have no sheet, `XLSX.read` may
throw, or parsing succeeds with sampled metrics. -/
inductive XlsxInput
  | toolUnavailable
  | noSheet
  | parseError (e : String)
  | ok (rows : Nat) (colsFound : Bool) (emptyRate : ℚ) (hasUnitTokens : Bool)

/-- Score accumulation of the success branch of `analyzeXlsx`. -/
def analyzeXlsxRaw (rows : Nat) (colsFound : Bool) (emptyRate : ℚ)
    (hasUnitTokens : Bool) : Int :=
  (if rows ≥ 10 then labsXlsxW.rows_hi else labsXlsxW.rows_low) +
  (if colsFound then labsXlsxW.cols_hi else labsXlsxW.cols_low) +
  (if emptyRate ≤ 0.1 then labsXlsxW.empties_hi
   else if emptyRate ≤ 0.25 then labsXlsxW.empties_mid else labsXlsxW.empties_low) +
  (if hasUnitTokens then labsXlsxW.units_bonus else 0)

/-- Advisory messages of the success branch of `analyzeXlsx`, in push order. -/
def analyzeXlsxMsgs (rows : Nat) (emptyRate : ℚ) : List String :=
  (if rows ≥ 10 then [] else ["Too few rows — include ≥ 10."]) ++
  (if emptyRate ≤ 0.1 then []
   else if emptyRate ≤ 0.25 then ["Many blanks — fill key fields."]
   else ["High blank rate."]) ++
  ["Check columns: Patient/ID, DateTime, Test, Result, Units, Reference Range."]

/-- `analyzeXlsx` with its degraded branches (labs/index.js lines 104–130). -/
def analyzeXlsx : XlsxInput → Result
  | .toolUnavailable =>
    { score := 50, messages := ["XLSX library not available — try again or save as CSV."]
      details := ["XLSX not ready"] }
  | .noSheet => { score := 45, messages := ["No sheets found"], details := [] }
  | .parseError e =>
    { score := 50, messages := ["Could not parse XLSX — save as CSV and retry."]
      details := ["Parse error: " ++ e] }
  | .ok rows colsFound emptyRate hasUnitTokens =>
    { score := min 100 (analyzeXlsxRaw rows colsFound emptyRate hasUnitTokens)
      messages := dedupe (analyzeXlsxMsgs rows emptyRate), details := [] }

/-- `labs` fallback for a file matching no labs format test. -/
def labsUnknownResult : Result :=
  { score := 55, messages := ["Unknown lab file format"], details := [] }

/-- A FHIR `valueQuantity`: optional `unit` and `code` fields. -/
structure Quantity where
  unit : Option String
  code : Option String
deriving DecidableEq, Repr

/-- A parsed FHIR resource as far as `analyzeFhirJson` inspects it. -/
structure FhirResource where
  resourceType : String
  valueQuantity : Option Quantity
deriving DecidableEq, Repr

/-- A parsed FHIR JSON document: a bundle (`obj.entry` is an array whose
elements may lack a `resource`), a bare resource (`obj.resourceType`
present), or anything else. -/
inductive FhirDoc
  | bundle (entries : List (Option FhirResource))
  | single (r : FhirResource)
  | other
deriving DecidableEq, Repr

/-- JS truthiness of an optional string field: absent and `""` are falsy. -/
def truthyStr : Option String → Bool
  | none => false
  | some s => s ≠ ""

/-- `resources` of `analyzeFhirJson`. -/
def fhirResources : FhirDoc → List (Option FhirResource)
  | .bundle es => es
  | .single r => [some r]
  | .other => []

/-- `hasPatient` of `analyzeFhirJson`. -/
def fhirHasPatient (d : FhirDoc) : Bool :=
  (fhirResources d).any (fun r =>
    match r with
    | some x => x.resourceType == "Patient"
    | none => false)

/-- `observations` of `analyzeFhirJson` (`r && r.resourceType==='Observation'`). -/
def fhirObservations (d : FhirDoc) : List FhirResource :=
  ((fhirResources d).filterMap id).filter (fun r => r.resourceType == "Observation")

/-- The `withUnits` filter predicate of `analyzeFhirJson`
(`o.valueQuantity && (o.valueQuantity.unit||o.valueQuantity.code)`). -/
def carriesUnit (o : FhirResource) : Bool :=
  match o.valueQuantity with
  | some q => truthyStr q.unit || truthyStr q.code
  | none => false

/-- `withUnits` of `analyzeFhirJson`. -/
def fhirWithUnits (d : FhirDoc) : List FhirResource :=
  (fhirObservations d).filter carriesUnit

/-- Score accumulation of `analyzeFhirJson` (the observation credit is the
hard-wired `Math.min(25, observations.length? 25: 0)`). -/
def analyzeFhirRaw (d : FhirDoc) : Int :=
  (if fhirHasPatient d then labsFhirW.structureW else 0) +
  min 25 (if (fhirObservations d).length ≠ 0 then 25 else 0) +
  (if (fhirWithUnits d).length ≠ 0 then labsFhirW.units else 0)

/-- Advisory messages of `analyzeFhirJson`, in push order. -/
def analyzeFhirMsgs (d : FhirDoc) : List String :=
  (if fhirHasPatient d then [] else ["No Patient resource found."]) ++
  (if (fhirWithUnits d).length ≠ 0 then [] else ["Observations missing units."])

/-- `analyzeFhirJson`: try/catch converts a JSON parse failure into a fixed
score-50 result carrying the error description. -/
def analyzeFhirJson : Except String FhirDoc → Result
  | .error e =>
    { score := 50, messages := ["Invalid JSON or FHIR structure."]
      details := ["JSON parse error: " ++ e] }
  | .ok d =>
    { score := min 100 (analyzeFhirRaw d), messages := dedupe (analyzeFhirMsgs d)
      details := ["Observations: " ++ toString (fhirObservations d).length ++
        " · With units: " ++ toString (fhirWithUnits d).length] }

/-- `segs` of `analyzeHl7`:
`text.split(/\r?\n/).map(s=>s.split('|')[0]).filter(Boolean)`. -/
def hl7Segs (text : List Char) : List (List Char) :=
  ((jsSplitLines text).map (fun l => (jsSplit '|' l).headD [])).filter
    (fun s => !s.isEmpty)

def hl7HasMSH (text : List Char) : Bool := (hl7Segs text).contains "MSH".data
def hl7HasPID (text : List Char) : Bool := (hl7Segs text).contains "PID".data
def hl7HasOBR (text : List Char) : Bool := (hl7Segs text).contains "OBR".data

/-- `obxCount` of `analyzeHl7`. -/
def hl7ObxCount (text : List Char) : Nat :=
  ((hl7Segs text).filter (fun s => s == "OBX".data)).length

/-- Score accumulation of `analyzeHl7` before the flat `+ 15` of the return
statement (30 for MSH+PID, 15 for OBR, `Math.min(25, obxCount? 25:0)`). -/
def analyzeHl7Raw (text : List Char) : Int :=
  (if hl7HasMSH text && hl7HasPID text then 30 else 0) +
  (if hl7HasOBR text then 15 else 0) +
  min 25 (if hl7ObxCount text ≠ 0 then 25 else 0)

/-- The success branch of `analyzeHl7`. -/
def analyzeHl7Core (text : List Char) : Result :=
  { score := min 100 (analyzeHl7Raw text + 15)
    messages := dedupe
      (if !(hl7HasMSH text && hl7HasPID text) then ["Missing MSH/PID segments."] else [])
    details := ["Segments: " ++ toString (hl7Segs text).length ++
      " (OBX: " ++ toString (hl7ObxCount text) ++ ")"] }

/-- `analyzeHl7` with its catch branch (a `file.text()` failure). -/
def analyzeHl7 : Except String (List Char) → Result
  | .error e =>
    { score := 50, messages := ["HL7 parse error."], details := ["HL7 error: " ++ e] }
  | .ok text => analyzeHl7Core text

/- ----------------------------------------------- -/
/- Med-imaging plugin (src/unnamed/part_000)        -/
/- ----------------------------------------------- -/

/-- `POLICY.jpgpng` of the med-imaging plugin. -/
structure MedPolicy where
  size_hi : Int
  size_mid : Int
  size_low : Int
  sharp_hi : Int
  sharp_mid : Int
  sharp_low : Int
  contrast_hi : Int
  contrast_mid : Int
  contrast_low : Int
  banding_pen : Int
  noise_pen : Int
  motion_pen : Int
  center_uniform_hi : Int
  center_uniform_mid : Int
  center_uniform_low : Int
  bonus : Int

/-- `POLICY.jpgpng` values (`*_pen` embed the `*_penalty` keys). -/
def medJpgpngW : MedPolicy := ⟨20, 12, 6, 20, 12, 6, 20, 12, 6, -10, -8, -10, 20, 12, 6, 10⟩

def medThresholds : Thresholds := ⟨85, 70⟩

/-- The decoded metrics `analyzeScanExport` scores, all produced from the
decoded pixel buffer by the pixel-statistics utilities. -/
structure ScanMetrics where
  megapx : ℚ
  lapVar : ℚ
  contrast : ℚ
  uniformDelta : ℚ
  bgStd : ℚ
  motionQuot : ℚ
  banding : Bool

/-- Score accumulation of `analyzeScanExport` (part_000 lines 80–101):
three-tier checks, uniformity tiers, penalties for banding / noise / motion,
flat bonus. -/
def scanExportRaw (m : ScanMetrics) : Int :=
  (if m.megapx ≥ 1 then medJpgpngW.size_hi
   else if m.megapx ≥ 0.6 then medJpgpngW.size_mid else medJpgpngW.size_low) +
  (if m.lapVar > 120 then medJpgpngW.sharp_hi
   else if m.lapVar ≥ 60 then medJpgpngW.sharp_mid else medJpgpngW.sharp_low) +
  (if m.contrast ≥ 30 then medJpgpngW.contrast_hi
   else if m.contrast ≥ 20 then medJpgpngW.contrast_mid else medJpgpngW.contrast_low) +
  (if m.uniformDelta ≤ 8 then medJpgpngW.center_uniform_hi
   else if m.uniformDelta ≤ 20 then medJpgpngW.center_uniform_mid
   else medJpgpngW.center_uniform_low) +
  (if m.banding then medJpgpngW.banding_pen else 0) +
  (if m.bgStd ≥ 18 then medJpgpngW.noise_pen else 0) +
  (if m.motionQuot ≥ 2.5 then medJpgpngW.motion_pen else 0) +
  medJpgpngW.bonus

/-- Advisory messages of `analyzeScanExport`, in push order. -/
def scanExportMsgs (m : ScanMetrics) : List String :=
  (if m.megapx ≥ 1 then []
   else if m.megapx ≥ 0.6 then ["Low resolution — prefer larger matrix."]
   else ["Very low resolution export."]) ++
  (if m.lapVar > 120 then []
   else if m.lapVar ≥ 60 then ["Slight blur — check motion."]
   else ["Blurry — repeat acquisition/export."]) ++
  (if m.contrast ≥ 30 then []
   else if m.contrast ≥ 20 then ["Low dynamic range — window/level suboptimal."]
   else ["Very low dynamic range."]) ++
  (if m.banding then ["Posterization/banding detected — avoid 8‑bit re-exports; keep original DICOM."] else []) ++
  (if m.bgStd ≥ 18 then ["High noise — adjust dose, averaging, or reconstruction."] else []) ++
  (if m.motionQuot ≥ 2.5 then ["Motion artifacts likely — consider breath-hold or stabilization."] else []) ++
  ["Prefer original DICOM for analysis.",
   "Ensure pixel spacing/orientation metadata is preserved on upload."]

/-- The scoring stage of `analyzeScanExport`: explicit
`Math.max(0, Math.min(100, score))` clamp and deduplicated messages. -/
def analyzeScanExportCore (m : ScanMetrics) : Result :=
  { score := max 0 (min 100 (scanExportRaw m))
    messages := dedupe (scanExportMsgs m), details := [] }

/-- `analyzeScanExport` has NO try/catch: a `loadImage` decode failure
propagates to the caller. -/
def analyzeScanExport (input : Except String ScanMetrics) : Except String Result :=
  input.map analyzeScanExportCore

/-- `analyzeDICOMStub` (part_000 lines 111–120): fixed stub result. -/
def dicomStubResult : Result :=
  { score := 75
    messages :=
      ["DICOM client stub: full checks should run server-side with a DICOM toolkit.",
       "Validate Modality (CT/MR/US), PixelSpacing, SliceThickness, Orientation, Series completeness."]
    details := ["Format: DICOM (.dcm)"] }

/-- `(file.name||'').toLowerCase().split('.').pop()`. -/
def extOf (name : String) : List Char :=
  ((jsSplit '.' (jsLower name)).getLast?).getD []

/-- Med-imaging fallback result. -/
def medFallbackResult : Result :=
  { score := 55, messages := ["Not recognized as CT/MR/US export — fallback."]
    details := [] }

/-- The three dispatch targets of the med-imaging `analyze`. -/
inductive MedRoute
  | dicom
  | scan
  | fallback
deriving DecidableEq, Repr

/-- Dispatch of med-imaging `analyze` (part_000 lines 19–23): `.dcm`
extension or a DICOM MIME type goes to the stub, an image extension to
`analyzeScanExport`, anything else to the fallback. -/
def medRoute (f : FileDesc) : MedRoute :=
  if extOf f.name = "dcm".data ∨ (f.type ≠ "" ∧ containsSub (jsLower f.type) "dicom".data)
  then .dicom
  else if endsWithAny (jsLower f.name)
    ["jpeg".data, "jpg".data, "png".data, "bmp".data, "webp".data]
  then .scan
  else .fallback

/-- Med-imaging `analyze`: the stub and fallback branches never fail; the
scan-export branch forwards a decode failure. -/
def medAnalyze (f : FileDesc) (scanInput : Except String ScanMetrics) :
    Except String Result :=
  match medRoute f with
  | .dicom => .ok dicomStubResult
  | .scan => analyzeScanExport scanInput
  | .fallback => .ok medFallbackResult

/- ------------------------------------------------------- -/
/- Gradient sums and motion quotient (part_000 lines 71–78) -/
/- ------------------------------------------------------- -/

/-- `g[y*w+x]` of the grayscale buffer (out-of-range reads give 0). -/
def pxAt (g : List Nat) (w x y : Nat) : Int := (g.getD (y * w + x) 0 : Int)

/-- `gx`: total absolute horizontal difference over interior pixels
(`for y=1..h-2, x=1..w-2`). -/
def gxSum (g : List Nat) (w h : Nat) : Int :=
  ((List.range' 1 (h - 2)).map (fun y =>
    ((List.range' 1 (w - 2)).map (fun x =>
      |pxAt g w x y - pxAt g w (x - 1) y|)).sum)).sum

/-- `gy`: total absolute vertical difference over interior pixels. -/
def gySum (g : List Nat) (w h : Nat) : Int :=
  ((List.range' 1 (h - 2)).map (fun y =>
    ((List.range' 1 (w - 2)).map (fun x =>
      |pxAt g w x y - pxAt g w x (y - 1)|)).sum)).sum

/-- `gx>gy? 'x' : 'y'`. -/
def motionAxis (g : List Nat) (w h : Nat) : String :=
  if gxSum g w h > gySum g w h then "x" else "y"

/-- The guarded denominator `Math.max(1, Math.min(gx, gy))`. -/
def motionDenom (g : List Nat) (w h : Nat) : Int :=
  max 1 (min (gxSum g w h) (gySum g w h))

/-- `motionRatio = Math.max(gx,gy) / Math.max(1, Math.min(gx,gy))`,
embedded exactly over the rationals. -/
def motionQuotOf (g : List Nat) (w h : Nat) : ℚ :=
  (max (gxSum g w h) (gySum g w h) : ℚ) / (motionDenom g w h : ℚ)

/- ------------------------------------------------- -/
/- Shell (src/preflight/core/shell.js, both variants)  -/
/- ------------------------------------------------- -/

/-- `facts(file)` of the plugin-routing shell. -/
structure Facts where
  name : List Char
  type : List Char
  isPdf : Bool
  isImage : Bool
  isCsv : Bool
  isXlsx : Bool
  isDocx : Bool
  isDicom : Bool

def facts (f : FileDesc) : Facts :=
  let name := jsLower f.name
  let type := jsLower f.type
  { name := name
    type := type
    isPdf := endsWithL name ".pdf".data || (type == "application/pdf".data)
    isImage := startsWithL type "image/".data ||
      endsWithAny name [".jpeg".data, ".jpg".data, ".png".data, ".bmp".data, ".webp".data]
    isCsv := endsWithL name ".csv".data || (type == "text/csv".data)
    isXlsx := endsWithL name ".xlsx".data || containsSub type "spreadsheet".data ||
      containsSub type "excel".data || containsSub type "officedocument.spreadsheetml".data
    isDocx := endsWithL name ".docx".data ||
      containsSub type "officedocument.wordprocessingml".data
    isDicom := endsWithL name ".dcm".data || containsSub type "dicom".data }

/-- The alternatives of the X-ray keyword regex
`/(x[- ]?ray|xray|radiograph|hand|wrist|chest|bone)/i` (the optional group
`x[- ]?ray` expands to `xray`, `x-ray`, `x ray`). -/
def xrKeywords : List (List Char) :=
  ["xray", "x-ray", "x ray", "radiograph", "hand", "wrist", "chest", "bone"].map String.data

/-- Alternatives of the med-imaging keyword regex. -/
def imKeywords : List (List Char) :=
  ["ct", "mri", "mr", "ultrasound", "us", "axial", "sagittal", "coronal",
   "radiology", "dicom", "series"].map String.data

/-- Alternatives of the labs keyword regex. -/
def labWords : List (List Char) :=
  ["lab", "report", "cbc", "cmp", "lipid", "thyroid", "blood", "hl7", "fhir",
   "chemistry", "haem", "hematology", "biochem", "pathology"].map String.data

def looksLikeXray (f : FileDesc) : Bool :=
  let fc := facts f
  fc.isDicom || (fc.isImage && containsAny fc.name xrKeywords)

def looksLikeMedImaging (f : FileDesc) : Bool :=
  let fc := facts f
  fc.isDicom || (fc.isImage && containsAny fc.name imKeywords)

def looksLikeLab (f : FileDesc) : Bool :=
  let fc := facts f
  fc.isCsv || fc.isXlsx ||
  endsWithAny fc.name ["json".data, "hl7".data] ||
  containsSub fc.type "application/json".data ||
  containsAny fc.name labWords

def looksLikeGenericDoc (f : FileDesc) : Bool :=
  let fc := facts f
  fc.isPdf || fc.isImage || fc.isCsv || fc.isXlsx || fc.isDocx

/-- The `routes` table of the plugin-routing shell, in source order. -/
def routesList : List (String × (FileDesc → Bool)) :=
  [("xray-plus", looksLikeXray), ("med-imaging", looksLikeMedImaging),
   ("labs", looksLikeLab), ("doc-ocr", looksLikeGenericDoc)]

/-- First route whose predicate matches, as in the `for (const r of routes)`
loop of `addFileCard`. -/
def firstMatch (rs : List (String × (FileDesc → Bool))) (f : FileDesc) : Option String :=
  (rs.find? (fun r => r.2 f)).map (fun r => r.1)

def routeFile (f : FileDesc) : Option String := firstMatch routesList f

/-- Whether `addFileCard` produces a plugin at all (the route loop plus the
generic-doc failsafe); with no plugin it renders only a status line and
returns no Result. -/
def addFileCardHasPlugin (f : FileDesc) : Bool :=
  (routeFile f).isSome || looksLikeGenericDoc f

/-- `determinePlugin` of the engine-based shell (shell.js lines 85–101):
an if-cascade over the same keyword heuristics with default `'doc-ocr'`. -/
def determinePlugin (f : FileDesc) : String :=
  let name := jsLower f.name
  let type := jsLower f.type
  if containsAny name xrKeywords then "xray-plus"
  else if containsAny name imKeywords || containsSub type "dicom".data ||
    endsWithL name ".dcm".data then "med-imaging"
  else if containsAny name labWords then "labs"
  else if endsWithL name ".csv".data || endsWithL name ".xlsx".data then "labs"
  else "doc-ocr"

/-- The cascade of `determinePlugin` as an ordered predicate table with a
final catch-all, for the first-match characterization. -/
def v1Routes : List (String × (FileDesc → Bool)) :=
  [("xray-plus", fun f => containsAny (jsLower f.name) xrKeywords),
   ("med-imaging", fun f => containsAny (jsLower f.name) imKeywords ||
      containsSub (jsLower f.type) "dicom".data || endsWithL (jsLower f.name) ".dcm".data),
   ("labs", fun f => containsAny (jsLower f.name) labWords),
   ("labs", fun f => endsWithL (jsLower f.name) ".csv".data ||
      endsWithL (jsLower f.name) ".xlsx".data),
   ("doc-ocr", fun _ => true)]

/-- The four engine targets of the engine-based shell's `analyzeFile`. -/
inductive EngineRoute
  | image
  | pdf
  | spreadsheet
  | unsupported
deriving DecidableEq, Repr

/-- Dispatch of `analyzeFile` (shell.js lines 50–67): image by MIME prefix
or extension, then PDF, then spreadsheet, else the unsupported fallback. -/
def shellRouteV1 (f : FileDesc) : EngineRoute :=
  let lowName := jsLower f.name
  if containsSub f.type.data "image/".data ||
    endsWithAny lowName [".jpg".data, ".jpeg".data, ".png".data, ".webp".data, ".bmp".data]
  then .image
  else if f.type = "application/pdf" || endsWithL lowName ".pdf".data then .pdf
  else if endsWithL lowName ".csv".data || endsWithL lowName ".xlsx".data ||
    endsWithL lowName ".xls".data || containsSub f.type.data "spreadsheet".data ||
    containsSub f.type.data "excel".data || containsSub f.type.data "csv".data
  then .spreadsheet
  else .unsupported

/-- The result shape of the engine-based shell. -/
structure ShellResult where
  valid : Bool
  score : Int
  msg : String
  tag : String
deriving DecidableEq, Repr

/-- The fallback object of `analyzeFile`
(`{ valid: false, score: 0, msg: "⚠️ File Type Unsupported for analysis", tag }`). -/
def unsupportedResultV1 (tag : String) : ShellResult :=
  { valid := false, score := 0, msg := "⚠️ File Type Unsupported for analysis", tag := tag }

/- --------------------------------------- -/
/- Verdict and upload gate (plugin shell)    -/
/- --------------------------------------- -/

inductive Verdict
  | accept
  | borderline
  | reject
deriving DecidableEq, Repr

/-- The verdict of `addFileCard` (shell.js lines 389–390):
`res.score>=accept ? accept : res.score>=borderline ? borderline : reject`. -/
def verdictOf (acc bord s : ℚ) : Verdict :=
  if s ≥ acc then .accept else if s ≥ bord then .borderline else .reject

/-- `btnUpload.disabled = !(res.score>=plugin.thresholds.accept)` — the
upload action is enabled exactly when the score reaches `accept`. -/
def uploadEnabled (acc s : ℚ) : Bool := s ≥ acc

/-- Ordering of verdicts from worst to best, for monotonicity. -/
def verdictRank : Verdict → Nat
  | .reject => 0
  | .borderline => 1
  | .accept => 2

/-- The spec's "neutral mid-range score", read as the band around the
neutral fallback scores the code uses elsewhere (50 and 55). -/
def midRangeScore (s : Int) : Prop := 40 ≤ s ∧ s ≤ 60

/-- Modelled from the spec: the source of the xray plugin
(`src/preflight/plugins/xray/index.js`, loaded by the first entry of the
`routes` table) is not under `src/`.  Per the spec (§4.3 "Opaque binary
imaging format" and §8 end-to-end scenario 4), a `.dcm` file reaching it is
handled by the opaque-binary-imaging stub: a fixed stub score and a message
instructing that full validation must run server-side with a DICOM toolkit —
the same stub result the med-imaging plugin returns. -/
def xrayAnalyzeDcm (_f : FileDesc) : Result := dicomStubResult

/- --------------------------------- -/
/- Lemmas about `jsSplit` (extension) -/
/- --------------------------------- -/

lemma jsSplit_ne_nil (sep : Char) (l : List Char) : jsSplit sep l ≠ [] := by
  induction l with
  | nil => simp [jsSplit]
  | cons c cs ih =>
    simp only [jsSplit]
    cases h : jsSplit sep cs with
    | nil => simp
    | cons r rs => dsimp only; split <;> simp

lemma jsSplit_of_not_mem (sep : Char) (w : List Char) (hw : sep ∉ w) :
    jsSplit sep w = [w] := by
  induction w with
  | nil => rfl
  | cons c cs ih =>
    have hc : ¬ c = sep := fun h => hw (h ▸ List.mem_cons_self _ _)
    have hcs : sep ∉ cs := fun h => hw (List.mem_cons_of_mem _ h)
    simp only [jsSplit, ih hcs]
    rw [if_neg hc]

lemma jsSplit_len2 (sep : Char) (m : List Char) (hm : sep ∈ m) :
    2 ≤ (jsSplit sep m).length := by
  induction m with
  | nil => simp at hm
  | cons c cs ih =>
    simp only [jsSplit]
    cases h : jsSplit sep cs with
    | nil => exact absurd h (jsSplit_ne_nil sep cs)
    | cons r rs =>
      dsimp only
      by_cases hc : c = sep
      · rw [if_pos hc]; simp
      · rw [if_neg hc]
        rcases List.mem_cons.mp hm with rfl | hmem
        · exact absurd rfl hc
        · have h2 := ih hmem
          rw [h] at h2
          simpa using h2

lemma jsSplit_getLast?_append (sep : Char) (l₁ l₂ : List Char) :
    (jsSplit sep (l₁ ++ sep :: l₂)).getLast? = (jsSplit sep l₂).getLast? := by
  induction l₁ with
  | nil =>
    simp only [List.nil_append, jsSplit]
    cases h : jsSplit sep l₂ with
    | nil => exact absurd h (jsSplit_ne_nil sep l₂)
    | cons r rs => simp [List.getLast?_cons_cons]
  | cons c cs ih =>
    simp only [List.cons_append, jsSplit]
    cases h : jsSplit sep (cs ++ sep :: l₂) with
    | nil => exact absurd h (jsSplit_ne_nil _ _)
    | cons r rs =>
      rw [h] at ih
      dsimp only
      by_cases hc : c = sep
      · rw [if_pos hc, List.getLast?_cons_cons]
        exact ih
      · rw [if_neg hc]
        cases rs with
        | nil =>
          exfalso
          have h2 := jsSplit_len2 sep (cs ++ sep :: l₂) (by simp)
          rw [h] at h2
          simp at h2
        | cons b bs =>
          rw [List.getLast?_cons_cons]
          rw [List.getLast?_cons_cons] at ih
          exact ih

lemma extOf_eq_of_suffix {name : String} {pre : List Char}
    (h : jsLower name = pre ++ '.' :: "dcm".data) : extOf name = "dcm".data := by
  unfold extOf
  rw [h, jsSplit_getLast?_append, jsSplit_of_not_mem _ _ (by decide)]
  rfl

/- ------------------------------------ -/
/- Accumulated scores are non-negative    -/
/- ------------------------------------ -/

lemma analyzePdfRaw_nonneg (s : PdfSample) : 0 ≤ analyzePdfRaw s := by
  unfold analyzePdfRaw labsPdfW
  split_ifs <;> decide

lemma analyzeImageRaw_nonneg (s : ImgSample) : 0 ≤ analyzeImageRaw s := by
  unfold analyzeImageRaw labsImageW
  split_ifs <;> decide

lemma analyzeCsvRaw_nonneg (s : CsvSample) : 0 ≤ analyzeCsvRaw s := by
  unfold analyzeCsvRaw labsCsvW
  split_ifs <;> decide

lemma analyzeXlsxRaw_nonneg (rows : Nat) (colsFound : Bool) (emptyRate : ℚ)
    (hasUnitTokens : Bool) : 0 ≤ analyzeXlsxRaw rows colsFound emptyRate hasUnitTokens := by
  unfold analyzeXlsxRaw labsXlsxW
  split_ifs <;> decide

lemma analyzeFhirRaw_nonneg (d : FhirDoc) : 0 ≤ analyzeFhirRaw d := by
  unfold analyzeFhirRaw labsFhirW
  split_ifs <;> decide

lemma analyzeHl7Raw_nonneg (t : List Char) : 0 ≤ analyzeHl7Raw t := by
  unfold analyzeHl7Raw
  split_ifs <;> decide

/- ================================================================ -/
/- Claim theorems                                                     -/
/- ================================================================ -/

/-- C1: for every analyzer family and every input — every scoring branch,
every degraded/caught branch, the stub and the fallbacks — the score of the
returned Result is an integer (the `score` field has type `Int` and is a sum
of integer weights) with `0 ≤ score ≤ 100`, and on every scoring path the
final score equals `max 0 (min 100 accumulatedScore)` (the analyzers that
apply only `Math.min(100, score)` accumulate a provably non-negative score,
so their result also equals the full clamp). -/
theorem c1_score_clamp_invariant :
    (∀ m : ScanMetrics,
      (analyzeScanExportCore m).score = max 0 (min 100 (scanExportRaw m)) ∧
      0 ≤ (analyzeScanExportCore m).score ∧ (analyzeScanExportCore m).score ≤ 100) ∧
    (∀ s : PdfSample,
      (analyzePdf (Except.ok s)).score = max 0 (min 100 (analyzePdfRaw s)) ∧
      0 ≤ (analyzePdf (Except.ok s)).score ∧ (analyzePdf (Except.ok s)).score ≤ 100) ∧
    (∀ s : ImgSample,
      (analyzeImageCore s).score = max 0 (min 100 (analyzeImageRaw s)) ∧
      0 ≤ (analyzeImageCore s).score ∧ (analyzeImageCore s).score ≤ 100) ∧
    (∀ s : CsvSample,
      (analyzeCsv s).score = max 0 (min 100 (analyzeCsvRaw s)) ∧
      0 ≤ (analyzeCsv s).score ∧ (analyzeCsv s).score ≤ 100) ∧
    (∀ (r : Nat) (c : Bool) (er : ℚ) (u : Bool),
      (analyzeXlsx (XlsxInput.ok r c er u)).score =
        max 0 (min 100 (analyzeXlsxRaw r c er u)) ∧
      0 ≤ (analyzeXlsx (XlsxInput.ok r c er u)).score ∧
      (analyzeXlsx (XlsxInput.ok r c er u)).score ≤ 100) ∧
    (∀ d : FhirDoc,
      (analyzeFhirJson (Except.ok d)).score = max 0 (min 100 (analyzeFhirRaw d)) ∧
      0 ≤ (analyzeFhirJson (Except.ok d)).score ∧ (analyzeFhirJson (Except.ok d)).score ≤ 100) ∧
    (∀ t : List Char,
      (analyzeHl7Core t).score = max 0 (min 100 (analyzeHl7Raw t + 15)) ∧
      0 ≤ (analyzeHl7Core t).score ∧ (analyzeHl7Core t).score ≤ 100) ∧
    (∀ e : String,
      (analyzePdf (Except.error e)).score = 50 ∧
      (analyzeFhirJson (Except.error e)).score = 50 ∧
      (analyzeHl7 (Except.error e)).score = 50 ∧
      (analyzeXlsx (XlsxInput.parseError e)).score = 50) ∧
    ((analyzeXlsx XlsxInput.toolUnavailable).score = 50 ∧
     (analyzeXlsx XlsxInput.noSheet).score = 45 ∧
     dicomStubResult.score = 75 ∧ labsUnknownResult.score = 55 ∧
     medFallbackResult.score = 55) := by
  refine ⟨?_, ?_, ?_, ?_, ?_, ?_, ?_, ?_, ?_⟩
  · intro m
    refine ⟨rfl, ?_, ?_⟩ <;> simp only [analyzeScanExportCore] <;> omega
  · intro s
    have h := analyzePdfRaw_nonneg s
    refine ⟨?_, ?_, ?_⟩ <;> simp only [analyzePdf] <;> omega
  · intro s
    have h := analyzeImageRaw_nonneg s
    refine ⟨?_, ?_, ?_⟩ <;> simp only [analyzeImageCore] <;> omega
  · intro s
    have h := analyzeCsvRaw_nonneg s
    refine ⟨?_, ?_, ?_⟩ <;> simp only [analyzeCsv] <;> omega
  · intro r c er u
    have h := analyzeXlsxRaw_nonneg r c er u
    refine ⟨?_, ?_, ?_⟩ <;> simp only [analyzeXlsx] <;> omega
  · intro d
    have h := analyzeFhirRaw_nonneg d
    refine ⟨?_, ?_, ?_⟩ <;> simp only [analyzeFhirJson] <;> omega
  · intro t
    have h := analyzeHl7Raw_nonneg t
    refine ⟨?_, ?_, ?_⟩ <;> simp only [analyzeHl7Core] <;> omega
  · intro e
    exact ⟨rfl, rfl, rfl, rfl⟩
  · exact ⟨rfl, rfl, rfl, rfl, rfl⟩

/-- C2: for thresholds with `accept > borderline`, the verdict of the shell
is `accept` iff `score ≥ accept`, `borderline` iff `borderline ≤ score <
accept`, `reject` iff `score < borderline`; the verdict is monotone in the
score (it never moves from accept toward reject as the score increases);
and the upload button is enabled exactly on verdict `accept`. -/
theorem c2_verdict_thresholds :
    ∀ acc bord s s2 : ℚ, bord < acc →
      ((verdictOf acc bord s = Verdict.accept ↔ acc ≤ s) ∧
       (verdictOf acc bord s = Verdict.borderline ↔ bord ≤ s ∧ s < acc) ∧
       (verdictOf acc bord s = Verdict.reject ↔ s < bord) ∧
       (s ≤ s2 → verdictRank (verdictOf acc bord s) ≤ verdictRank (verdictOf acc bord s2)) ∧
       (uploadEnabled acc s = true ↔ verdictOf acc bord s = Verdict.accept)) := by
  intro acc bord s s2 hlt
  unfold verdictOf uploadEnabled
  refine ⟨?_, ?_, ?_, ?_, ?_⟩
  · split_ifs with h1 h2 <;> simp <;> linarith
  · split_ifs with h1 h2
    · simp
      intro _
      linarith
    · simp
      exact ⟨h2, by linarith⟩
    · simp
      intro h
      linarith
  · split_ifs with h1 h2 <;> simp <;> linarith
  · intro hs
    unfold verdictRank
    split_ifs with h1 h2 h3 h4 h5 <;> simp <;> linarith
  · split_ifs with h1 <;> simp [h1]

/-- Witness for C2 at the labs thresholds (85/70) and concrete scores. -/
theorem c2_verdict_thresholds_witness :
    verdictOf 85 70 90 = Verdict.accept ∧ uploadEnabled 85 90 = true ∧
    verdictRank (verdictOf 85 70 75) ≤ verdictRank (verdictOf 85 70 90) := by
  have h75 := c2_verdict_thresholds 85 70 75 90 (by norm_num)
  have h90 := c2_verdict_thresholds 85 70 90 90 (by norm_num)
  refine ⟨h90.1.mpr (by norm_num), ?_, h75.2.2.2.1 (by norm_num)⟩
  exact h90.2.2.2.2.mpr (h90.1.mpr (by norm_num))

/-- C3: the router is a total deterministic function of the file descriptor
alone.  `determinePlugin` (engine shell) always returns one of the four
family tags and equals the first match of the ordered predicate table
`v1Routes` (keyword, MIME and extension predicates with a final catch-all);
repeated calls on equal descriptors agree; and the plugin shell's
`routeFile` returns the first route of the ordered `routes` table whose
predicate matches, `none` exactly when no predicate matches. -/
theorem c3_router_total_first_match :
    ∀ f : FileDesc,
      (some (determinePlugin f) = firstMatch v1Routes f) ∧
      (determinePlugin f = "xray-plus" ∨ determinePlugin f = "med-imaging" ∨
        determinePlugin f = "labs" ∨ determinePlugin f = "doc-ocr") ∧
      (∀ g, g = f → determinePlugin g = determinePlugin f ∧ routeFile g = routeFile f) ∧
      (looksLikeXray f = true → routeFile f = some "xray-plus") ∧
      (looksLikeXray f = false → looksLikeMedImaging f = true →
        routeFile f = some "med-imaging") ∧
      (looksLikeXray f = false → looksLikeMedImaging f = false → looksLikeLab f = true →
        routeFile f = some "labs") ∧
      (looksLikeXray f = false → looksLikeMedImaging f = false → looksLikeLab f = false →
        looksLikeGenericDoc f = true → routeFile f = some "doc-ocr") ∧
      (looksLikeXray f = false → looksLikeMedImaging f = false → looksLikeLab f = false →
        looksLikeGenericDoc f = false → routeFile f = none) := by
  intro f
  refine ⟨?_, ?_, ?_, ?_, ?_, ?_, ?_, ?_⟩
  · simp only [determinePlugin, firstMatch, v1Routes, List.find?]
    cases h1 : containsAny (jsLower f.name) xrKeywords <;>
    cases h2 : (containsAny (jsLower f.name) imKeywords ||
      containsSub (jsLower f.type) "dicom".data ||
      endsWithL (jsLower f.name) ".dcm".data) <;>
    cases h3 : containsAny (jsLower f.name) labWords <;>
    cases h4 : (endsWithL (jsLower f.name) ".csv".data ||
      endsWithL (jsLower f.name) ".xlsx".data) <;>
    simp [h1, h2, h3, h4]
  · unfold determinePlugin
    dsimp only
    split_ifs <;> simp
  · intro g hg
    subst hg
    exact ⟨rfl, rfl⟩
  · intro hx
    simp [routeFile, firstMatch, routesList, List.find?, hx]
  · intro hx hm
    simp [routeFile, firstMatch, routesList, List.find?, hx, hm]
  · intro hx hm hl
    simp [routeFile, firstMatch, routesList, List.find?, hx, hm, hl]
  · intro hx hm hl hg
    simp [routeFile, firstMatch, routesList, List.find?, hx, hm, hl, hg]
  · intro hx hm hl hg
    simp [routeFile, firstMatch, routesList, List.find?, hx, hm, hl, hg]

/-- Witness for C3: a `.dcm` file matches the first route. -/
theorem c3_router_witness : routeFile ⟨"scan.DCM", "", []⟩ = some "xray-plus" :=
  (c3_router_total_first_match ⟨"scan.DCM", "", []⟩).2.2.2.1 (by decide)

/-- C4 counterexample: the claim says every analyzer catches collaborator
decode/parse failures; but the labs `analyzeImage` has no try/catch, so an
image decode failure propagates to the caller as a thrown error and no
score-50 Result is produced. -/
theorem c4_counterexample :
    analyzeImage (Except.error "image decode failed") =
      Except.error "image decode failed" ∧
    (analyzeImage (Except.error "image decode failed")).toOption = none :=
  ⟨rfl, rfl⟩

/-- C4 amended: the PDF, FHIR-JSON, HL7 and XLSX labs analyzers catch
collaborator failures inside the analyzer and degrade to a fixed score-50
Result whose diagnostics contain the underlying error description; the
image-based analyzers (labs `analyzeImage`, med-imaging
`analyzeScanExport`) do not catch decode failures — those propagate to the
shell, which catches them outside the analyzer. -/
theorem c4_error_policy_amended : ∀ e : String,
    analyzePdf (Except.error e) =
      { score := 50, messages := ["PDF parse error — limited checks."]
        details := ["PDF.js error: " ++ e] } ∧
    analyzeFhirJson (Except.error e) =
      { score := 50, messages := ["Invalid JSON or FHIR structure."]
        details := ["JSON parse error: " ++ e] } ∧
    analyzeHl7 (Except.error e) =
      { score := 50, messages := ["HL7 parse error."], details := ["HL7 error: " ++ e] } ∧
    analyzeXlsx (XlsxInput.parseError e) =
      { score := 50, messages := ["Could not parse XLSX — save as CSV and retry."]
        details := ["Parse error: " ++ e] } ∧
    analyzeXlsx XlsxInput.toolUnavailable =
      { score := 50, messages := ["XLSX library not available — try again or save as CSV."]
        details := ["XLSX not ready"] } ∧
    analyzeImage (Except.error e) = Except.error e ∧
    analyzeScanExport (Except.error e) = Except.error e := by
  intro e
  exact ⟨rfl, rfl, rfl, rfl, rfl, rfl, rfl⟩

/-- C5: `dedupe` returns a list with no duplicates, in first-occurrence
order (the keep-first recurrence), each entry trimmed and non-empty; it is
idempotent; and the messages of every embedded analyzer Result satisfy the
no-duplicate invariant. -/
theorem c5_dedupe_invariant :
    (∀ x : List String, (dedupe x).Nodup) ∧
    (∀ x : List String, dedupe (dedupe x) = dedupe x) ∧
    (∀ (x : List String) (s : String), s ∈ dedupe x → strTrim s = s ∧ s ≠ "") ∧
    (∀ x : List String, List.Sublist (dedupe x) (x.map strTrim)) ∧
    (∀ (x : String) (xs : List String),
      dedupe (x :: xs) = if strTrim x = "" then dedupe xs
        else strTrim x :: (dedupe xs).filter (fun y => y ≠ strTrim x)) ∧
    (∀ (x : List String) (s : String), s ∈ x → strTrim s ≠ "" → strTrim s ∈ dedupe x) ∧
    (∀ m : ScanMetrics, (analyzeScanExportCore m).messages.Nodup) ∧
    (∀ s : PdfSample, (analyzePdf (Except.ok s)).messages.Nodup) ∧
    (∀ s : ImgSample, (analyzeImageCore s).messages.Nodup) ∧
    (∀ s : CsvSample, (analyzeCsv s).messages.Nodup) ∧
    (∀ i : XlsxInput, (analyzeXlsx i).messages.Nodup) ∧
    (∀ i : Except String FhirDoc, (analyzeFhirJson i).messages.Nodup) ∧
    (∀ i : Except String (List Char), (analyzeHl7 i).messages.Nodup) ∧
    dicomStubResult.messages.Nodup ∧ labsUnknownResult.messages.Nodup ∧
    medFallbackResult.messages.Nodup := by
  refine ⟨fun x => nodup_dedupeGo x [], dedupe_idem_l,
    fun x s h => ⟨(mem_dedupeGo h).1, (mem_dedupeGo h).2.1⟩,
    fun x => dedupeGo_sublist x [], dedupe_cons,
    fun x s hs hne => mem_dedupeGo_of_mem x [] s hs hne (by simp),
    ?_, ?_, ?_, ?_, ?_, ?_, ?_, ?_, ?_, ?_⟩
  · intro m
    exact nodup_dedupeGo _ _
  · intro s
    exact nodup_dedupeGo _ _
  · intro s
    exact nodup_dedupeGo _ _
  · intro s
    exact nodup_dedupeGo _ _
  · intro i
    cases i <;> first | exact nodup_dedupeGo _ _ | simp [analyzeXlsx]
  · intro i
    cases i <;> first | exact nodup_dedupeGo _ _ | simp [analyzeFhirJson]
  · intro i
    cases i
    · simp [analyzeHl7]
    · exact nodup_dedupeGo _ _
  · decide
  · decide
  · decide

/-- Witness for C5's conditional parts at concrete inputs. -/
theorem c5_dedupe_witness : strTrim "a" = "a" ∧ "a" ≠ "" :=
  c5_dedupe_invariant.2.2.1 ["a"] "a" (by decide)

/-- C6 counterexample: at `notes.txt` (`text/plain`) no family predicate
matches and the descriptor is not generic-document-like; the claim's
"Result carrying a neutral mid-range score" fails — the engine shell's
fallback Result carries score 0 and the plugin shell produces no Result at
all. -/
theorem c6_counterexample :
    shellRouteV1 ⟨"notes.txt", "text/plain", []⟩ = EngineRoute.unsupported ∧
    looksLikeGenericDoc ⟨"notes.txt", "text/plain", []⟩ = false ∧
    routeFile ⟨"notes.txt", "text/plain", []⟩ = none ∧
    addFileCardHasPlugin ⟨"notes.txt", "text/plain", []⟩ = false ∧
    (unsupportedResultV1 (determinePlugin ⟨"notes.txt", "text/plain", []⟩)).score = 0 ∧
    ¬ midRangeScore
      (unsupportedResultV1 (determinePlugin ⟨"notes.txt", "text/plain", []⟩)).score := by
  refine ⟨by decide, by decide, by decide, by decide, rfl, ?_⟩
  intro h
  exact absurd (h.1) (by decide)

/-- C6 amended: when no family predicate matches and the file is not
generic-document-like, the engine shell still returns a Result — never a
thrown failure — but with score 0 and the "File Type Unsupported" message,
not a neutral mid-range score; the plugin shell returns no Result at all,
only a status message.  The neutral mid-range (55) unknown-format fallbacks
exist only inside the labs and med-imaging plugins. -/
theorem c6_unsupported_amended : ∀ f : FileDesc,
    shellRouteV1 f = EngineRoute.unsupported →
      ((unsupportedResultV1 (determinePlugin f)).score = 0 ∧
       (unsupportedResultV1 (determinePlugin f)).valid = false ∧
       (unsupportedResultV1 (determinePlugin f)).msg =
         "⚠️ File Type Unsupported for analysis" ∧
       ¬ midRangeScore (unsupportedResultV1 (determinePlugin f)).score) ∧
      (addFileCardHasPlugin f = false → routeFile f = none) ∧
      (midRangeScore labsUnknownResult.score ∧ midRangeScore medFallbackResult.score) := by
  intro f _
  refine ⟨⟨rfl, rfl, rfl, fun h => by simp [midRangeScore, unsupportedResultV1] at h⟩,
    ?_, ⟨by decide, by decide⟩, ⟨by decide, by decide⟩⟩
  intro h
  rcases hr : routeFile f with _ | v
  · rfl
  · rw [addFileCardHasPlugin, hr] at h
    simp at h

/-- Witness for C6's amended statement at `notes.txt`. -/
theorem c6_amended_witness :
    (unsupportedResultV1 (determinePlugin ⟨"notes.txt", "text/plain", []⟩)).score = 0 :=
  ((c6_unsupported_amended ⟨"notes.txt", "text/plain", []⟩ (by decide)).1).1

/-- C7: for every file whose (lowercased) name ends in `.dcm`, regardless of
its content, MIME type, or any decoded metrics: the plugin shell routes it
to the first route (`xray-plus`, whose predicate holds through
`facts.isDicom`), the xray plugin's `.dcm` path (modelled from the spec)
returns the DICOM stub result, and the med-imaging plugin's own dispatcher
likewise returns the fixed stub result — score 75 and a message instructing
that full checks must run server-side with a DICOM toolkit. -/
theorem c7_dcm_routes_to_stub :
    ∀ (f : FileDesc) (pre : List Char) (scanInput : Except String ScanMetrics),
      jsLower f.name = pre ++ '.' :: "dcm".data →
      (extOf f.name = "dcm".data ∧
       medRoute f = MedRoute.dicom ∧
       medAnalyze f scanInput = Except.ok dicomStubResult ∧
       dicomStubResult.score = 75 ∧
       "DICOM client stub: full checks should run server-side with a DICOM toolkit."
         ∈ dicomStubResult.messages ∧
       looksLikeXray f = true ∧
       routeFile f = some "xray-plus" ∧
       xrayAnalyzeDcm f = dicomStubResult) := by
  intro f pre scanInput h
  have hext : extOf f.name = "dcm".data := extOf_eq_of_suffix h
  have hmr : medRoute f = MedRoute.dicom := by
    unfold medRoute
    rw [if_pos (Or.inl hext)]
  have hsuf : endsWithL (jsLower f.name) ".dcm".data = true := by
    have hs : (".dcm".data : List Char) <:+ jsLower f.name := ⟨pre, by rw [h]⟩
    rw [endsWithL]
    exact List.isSuffixOf_iff_suffix.mpr hs
  have hdicom : (facts f).isDicom = true := by
    unfold facts
    dsimp only
    rw [hsuf]
    rfl
  have hx : looksLikeXray f = true := by
    unfold looksLikeXray
    dsimp only
    rw [hdicom]
    rfl
  refine ⟨hext, hmr, ?_, rfl, List.mem_cons_self _ _, hx, ?_, rfl⟩
  · unfold medAnalyze
    rw [hmr]
  · simp [routeFile, firstMatch, routesList, List.find?, hx]

/-- Witness for C7 at `scan.DCM` with an arbitrary (failing) decode input. -/
theorem c7_dcm_witness :
    medAnalyze ⟨"scan.DCM", "", []⟩ (Except.error "x") = Except.ok dicomStubResult :=
  (c7_dcm_routes_to_stub ⟨"scan.DCM", "", []⟩ "scan".data (Except.error "x")
    (by decide)).2.2.1

/-- C8: for a structured clinical JSON bundle with one Patient resource and
three Observation resources, none carrying a (truthy) unit or code, the
FHIR analyzer's score equals the structure credit (60) plus the
observation-count credit (25) — i.e. 85, which excludes the 15-point unit
bonus — and the messages contain the "Observations missing units."
advisory. -/
theorem c8_fhir_missing_units :
    ∀ (p o1 o2 o3 : FhirResource),
      p.resourceType = "Patient" →
      o1.resourceType = "Observation" →
      o2.resourceType = "Observation" →
      o3.resourceType = "Observation" →
      carriesUnit o1 = false → carriesUnit o2 = false → carriesUnit o3 = false →
      ((analyzeFhirJson (Except.ok
          (FhirDoc.bundle [some p, some o1, some o2, some o3]))).score =
        labsFhirW.structureW + 25 ∧
       (analyzeFhirJson (Except.ok
          (FhirDoc.bundle [some p, some o1, some o2, some o3]))).score = 85 ∧
       labsFhirW.structureW + 25 + labsFhirW.units ≠
        (analyzeFhirJson (Except.ok
          (FhirDoc.bundle [some p, some o1, some o2, some o3]))).score ∧
       "Observations missing units." ∈
        (analyzeFhirJson (Except.ok
          (FhirDoc.bundle [some p, some o1, some o2, some o3]))).messages) := by
  intro p o1 o2 o3 hp ho1 ho2 ho3 hu1 hu2 hu3
  have hpat : fhirHasPatient (FhirDoc.bundle [some p, some o1, some o2, some o3]) = true := by
    simp [fhirHasPatient, fhirResources, hp]
  have hobs : fhirObservations (FhirDoc.bundle [some p, some o1, some o2, some o3]) =
      [o1, o2, o3] := by
    simp [fhirObservations, fhirResources, List.filterMap, List.filter, hp, ho1, ho2, ho3]
  have hwu : fhirWithUnits (FhirDoc.bundle [some p, some o1, some o2, some o3]) = [] := by
    simp [fhirWithUnits, hobs, List.filter, hu1, hu2, hu3]
  have hscore : (analyzeFhirJson (Except.ok
      (FhirDoc.bundle [some p, some o1, some o2, some o3]))).score = 85 := by
    simp [analyzeFhirJson, analyzeFhirRaw, hpat, hobs, hwu, labsFhirW]
  have hmsg : (analyzeFhirJson (Except.ok
      (FhirDoc.bundle [some p, some o1, some o2, some o3]))).messages =
      dedupe ["Observations missing units."] := by
    simp [analyzeFhirJson, analyzeFhirMsgs, hpat, hwu]
  refine ⟨by rw [hscore]; decide, hscore, by rw [hscore]; decide, ?_⟩
  rw [hmsg]
  decide

/-- Witness for C8 with concrete resources. -/
theorem c8_fhir_witness :
    (analyzeFhirJson (Except.ok (FhirDoc.bundle
      [some ⟨"Patient", none⟩, some ⟨"Observation", none⟩, some ⟨"Observation", none⟩,
       some ⟨"Observation", none⟩]))).score = 85 :=
  (c8_fhir_missing_units ⟨"Patient", none⟩ ⟨"Observation", none⟩ ⟨"Observation", none⟩
    ⟨"Observation", none⟩ rfl rfl rfl rfl rfl rfl rfl).2.1

/-- C9: for every pixel buffer and dimensions, the motion-ratio denominator
`max(1, min(gx, gy))` is at least 1 — so the ratio is a well-defined
rational, never a division by zero — and the ratio times the denominator
recovers `max(gx, gy)`; in the `gx = gy = 0` case the ratio takes the
well-defined value 0. -/
theorem c9_motion_quot_defined :
    ∀ (g : List Nat) (w h : Nat),
      1 ≤ motionDenom g w h ∧
      ((motionDenom g w h : ℚ) ≠ 0) ∧
      motionQuotOf g w h * (motionDenom g w h : ℚ) =
        (max (gxSum g w h) (gySum g w h) : ℚ) ∧
      (gxSum g w h = 0 → gySum g w h = 0 → motionQuotOf g w h = 0) := by
  intro g w h
  have h1 : (1 : Int) ≤ motionDenom g w h := le_max_left _ _
  have h2 : (motionDenom g w h : ℚ) ≠ 0 := by
    have h3 : (0 : ℚ) < (motionDenom g w h : ℚ) := by
      exact_mod_cast lt_of_lt_of_le zero_lt_one h1
    exact ne_of_gt h3
  refine ⟨h1, h2, ?_, ?_⟩
  · rw [motionQuotOf, div_mul_cancel₀]
    exact h2
  · intro hx hy
    simp [motionQuotOf, hx, hy]

/-- Witness for C9 in the `gx = gy = 0` case (empty buffer). -/
theorem c9_motion_witness : motionQuotOf [] 0 0 = 0 :=
  (c9_motion_quot_defined [] 0 0).2.2.2 rfl rfl

/-- C10: for every text input whose read succeeds, the HL7 analyzer's score
is `15 + (30 if MSH∧PID) + (15 if OBR) + (25 if at least one OBX)`; hence it
is at least 15 and at most 85; 85 equals the labs accept threshold; and the
score reaches the accept threshold exactly when every segment check
passes. -/
theorem c10_hl7_score_formula :
    ∀ text : List Char,
      (analyzeHl7Core text).score =
        15 + ((if hl7HasMSH text && hl7HasPID text then 30 else 0) +
          (if hl7HasOBR text then 15 else 0) +
          (if hl7ObxCount text ≠ 0 then 25 else 0)) ∧
      15 ≤ (analyzeHl7Core text).score ∧
      (analyzeHl7Core text).score ≤ 85 ∧
      labsThresholds.accept = 85 ∧
      (labsThresholds.accept ≤ (analyzeHl7Core text).score ↔
        (hl7HasMSH text = true ∧ hl7HasPID text = true ∧ hl7HasOBR text = true ∧
          hl7ObxCount text ≠ 0)) := by
  intro text
  unfold analyzeHl7Core analyzeHl7Raw labsThresholds
  dsimp only
  cases hm : hl7HasMSH text <;> cases hp : hl7HasPID text <;>
  cases ho : hl7HasOBR text <;> by_cases hx : hl7ObxCount text ≠ 0 <;>
  simp [hm, hp, ho, hx]

end Preflight
